import Mathlib

/- Shallow embedding of src/scripts/tags_extractor/tag_extractor.py
   (class LegalTagExtractor).

   Python strings are modelled as Lean String / List Char (every string the
   script manipulates is ASCII).  Python regular expressions are modelled with
   a small backtracking engine (inductive RE below) that reproduces the
   semantics of re.search for exactly the constructs appearing in the
   script's patterns: character literals, character classes, the greedy star
   over a character class, alternation with leftmost preference, optional
   parts, bounded repetition (expanded into sequence/option), capturing
   groups, and the word-boundary assertion.  re.search semantics: the match
   at the leftmost possible start position wins, and at that position the
   first alternative in backtracking priority order (greedy quantifiers,
   left alternative first) wins — which is what searchRun below computes.

   File system interaction (os.walk, open/read for hashing) is not pure
   code; the scanner is therefore modelled over a list of ScanFile records,
   each carrying exactly the data the Python per-file loop body consumes:
   the bare filename, the basename of the containing directory (category),
   the relative path, and the string returned by _calculate_file_hash for
   that file (a sha256 hex digest, or the sentinel "hash_error" for an
   unreadable file).  All per-file logic downstream of those four values is
   translated faithfully. -/

namespace TagExtractor

/-- Python `\s` on the ASCII range (sufficient for filenames). -/
def isPySpace (c : Char) : Bool :=
  c == ' ' || c == '\t' || c == '\n' || c == '\r' || c == '\x0b' || c == '\x0c'

/-- Python `\d` on the ASCII range. -/
def isDigitChar (c : Char) : Bool := '0' ≤ c && c ≤ '9'

/-- Python `\w` on the ASCII range (used only by the `\b` assertion). -/
def isWordChar (c : Char) : Bool :=
  ('a' ≤ c && c ≤ 'z') || ('A' ≤ c && c ≤ 'Z') || isDigitChar c || c == '_'

/-- str.lower for ASCII (the only characters the script ever lowercases). -/
def lowerChar (c : Char) : Char :=
  if 'A' ≤ c && c ≤ 'Z' then Char.ofNat (c.toNat + 32) else c

def lowerChars (s : List Char) : List Char := s.map lowerChar

/-- Index of the last occurrence of a character, if any. -/
def lastIdxOf (c : Char) : List Char → Option Nat
  | [] => none
  | x :: t =>
    match lastIdxOf c t with
    | some i => some (i + 1)
    | none => if x == c then some 0 else none

/-- os.path.splitext restricted to bare filenames (no directory separator),
returning the root: the extension starts at the last dot, unless every
character before that dot is itself a dot (leading-dot rule of
genericpath._splitext). -/
def splitextChars (s : List Char) : List Char :=
  match lastIdxOf '.' s with
  | none => s
  | some i => if (s.take i).any (fun c => c != '.') then s.take i else s

/-- Is `a` a prefix of `s`? -/
def isPre : List Char → List Char → Bool
  | [], _ => true
  | _ :: _, [] => false
  | x :: xs, y :: ys => x == y && isPre xs ys

/-- Python `needle in haystack` substring test. -/
def containsSub (needle : List Char) : List Char → Bool
  | [] => isPre needle []
  | c :: t => isPre needle (c :: t) || containsSub needle t

/-- Python `str.lower().endswith(suffix)` helper. -/
def endsWithChars (suf s : List Char) : Bool :=
  if suf.length ≤ s.length then (s.drop (s.length - suf.length)) == suf else false

/-- `file.lower().endswith('.pdf')` from analyze_directory. -/
def isPdfName (s : String) : Bool := endsWithChars ".pdf".data (lowerChars s.data)

/- ----------------------------------------------------------------- -/
/- The regular-expression engine.                                     -/
/- ----------------------------------------------------------------- -/

/-- Regular expressions, covering the constructs used by tag_extractor.py.
`star` is restricted to single-character classes because every quantified
subexpression in the script's patterns (`.*`, `\s*`, `\d+`, `[a-z]*`,
`\s+`) quantifies a single-character class; bounded repetitions such as
`\d{1,2}` are expanded with `seq`/`alt`. -/
inductive RE where
  | eps : RE
  | cls : (Char → Bool) → RE
  | seq : RE → RE → RE
  | alt : RE → RE → RE
  | star : (Char → Bool) → RE
  | grp : Nat → RE → RE
  | wb : RE

/-- A state during matching: the character just before the current position
(for `\b`), the remaining input, and the captures recorded so far. -/
structure MState where
  prev : Option Char
  rest : List Char
  caps : List (Nat × List Char)

def setCap (i : Nat) (v : List Char) : List (Nat × List Char) → List (Nat × List Char)
  | [] => [(i, v)]
  | (j, w) :: t => if j = i then (i, v) :: t else (j, w) :: setCap i v t

/-- Word-boundary test of `\b`: true when exactly one side of the current
position is a word character (a missing side counts as non-word). -/
def atBoundary (p : Option Char) (s : List Char) : Bool :=
  let a := match p with | some c => isWordChar c | none => false
  let b := match s with | c :: _ => isWordChar c | [] => false
  a != b

/-- Greedy star over a character class: candidate continuation states in
priority order, longest consumed run first. -/
def starStates (f : Char → Bool) (p : Option Char) (s : List Char)
    (cs : List (Nat × List Char)) : List MState :=
  let k := (s.takeWhile f).length
  (List.range (k + 1)).map (fun j =>
    let t := k - j
    ⟨if t = 0 then p else (s.drop (t - 1)).head?, s.drop t, cs⟩)

/-- All ways a regex can match a prefix of `s`, in backtracking priority
order (the head is the match Python's engine commits to). -/
def run : RE → Option Char → List Char → List (Nat × List Char) → List MState
  | .eps, p, s, cs => [⟨p, s, cs⟩]
  | .cls f, _, s, cs =>
    match s with
    | [] => []
    | c :: t => if f c then [⟨some c, t, cs⟩] else []
  | .seq a b, p, s, cs =>
    (run a p s cs).foldr (fun st acc => run b st.prev st.rest st.caps ++ acc) []
  | .alt a b, p, s, cs => run a p s cs ++ run b p s cs
  | .star f, p, s, cs => starStates f p s cs
  | .grp i a, p, s, cs =>
    (run a p s cs).map (fun st =>
      ⟨st.prev, st.rest, setCap i (s.take (s.length - st.rest.length)) st.caps⟩)
  | .wb, p, s, cs => if atBoundary p s then [⟨p, s, cs⟩] else []

/-- re.search: try the leftmost start position first; at each position take
the engine's first match, otherwise advance one character. -/
def searchRun (r : RE) : Option Char → List Char → Option (List (Nat × List Char))
  | p₀, [] =>
    match run r p₀ [] [] with
    | st :: _ => some st.caps
    | [] => none
  | p, c :: t =>
    match run r p (c :: t) [] with
    | st :: _ => some st.caps
    | [] => searchRun r (some c) t

/-- Boolean re.search (used for the tag patterns). -/
def reSearch (r : RE) (s : List Char) : Bool := (searchRun r none s).isSome

def capGet (cs : List (Nat × List Char)) (i : Nat) : List Char :=
  ((cs.find? (fun x => x.1 == i)).map Prod.snd).getD []

/-- re.search returning match.groups() for a pattern with three capturing
groups (every date pattern in the script has exactly three, and all three
participate in any match). -/
def reSearchCaps (r : RE) (s : List Char) : Option (String × String × String) :=
  (searchRun r none s).map (fun cs =>
    (String.mk (capGet cs 1), String.mk (capGet cs 2), String.mk (capGet cs 3)))

/- Combinators used to transcribe the patterns. -/

def rchr (c : Char) : RE := RE.cls (fun x => x == c)

def rstr (s : String) : RE := s.data.foldr (fun c r => RE.seq (rchr c) r) RE.eps

def rcat (l : List RE) : RE := l.foldr RE.seq RE.eps

/-- A regex that never matches (tail of an alternative chain). -/
def rfail : RE := RE.cls (fun _ => false)

/-- Left-to-right alternation chain, Python's leftmost preference. -/
def ralts (l : List RE) : RE := l.foldr RE.alt rfail

def ropt (r : RE) : RE := RE.alt r RE.eps

/-- `.` (any character but newline). -/
def rdot : RE := RE.cls (fun c => c != '\n')

/-- `.*` -/
def rdotStar : RE := RE.star (fun c => c != '\n')

/-- `\s*` -/
def rwsp : RE := RE.star isPySpace

/-- `\s+` -/
def rwsp1 : RE := RE.seq (RE.cls isPySpace) (RE.star isPySpace)

/-- `\d` -/
def rdig : RE := RE.cls isDigitChar

/-- `\d+` -/
def rdig1 : RE := RE.seq rdig (RE.star isDigitChar)

/-- `\d{1,2}` (greedy: two digits preferred). -/
def d12 : RE := RE.seq rdig (ropt rdig)

/-- `\d{2,4}` (greedy: four digits preferred, then three, then two). -/
def d24 : RE := RE.seq rdig (RE.seq rdig (ropt (RE.seq rdig (ropt rdig))))

/-- Separator class of the date patterns: dash, slash or dot. -/
def sepCls : RE := RE.cls (fun c => c == '-' || c == '/' || c == '.')

/-- `[a-z]*` -/
def lowStar : RE := RE.star (fun c => 'a' ≤ c && c ≤ 'z')

/- ----------------------------------------------------------------- -/
/- Python dict as an insertion-ordered association list.              -/
/- ----------------------------------------------------------------- -/

/-- `d.get(k)` / `k in d`. -/
def dictFind {α : Type} (k : String) : List (String × α) → Option α
  | [] => none
  | (k', v) :: t => if k' = k then some v else dictFind k t

/-- `d[k] = v`: overwrite in place, or append a new key at the end
(CPython dicts preserve insertion order; an overwrite keeps the key's
original position). -/
def dictSet {α : Type} (k : String) (v : α) : List (String × α) → List (String × α)
  | [] => [(k, v)]
  | (k', w) :: t => if k' = k then (k', v) :: t else (k', w) :: dictSet k v t

/-- The index-update idiom of analyze_directory:
`if k not in d: d[k] = []` followed by `d[k].append(v)`. -/
def dictPush (k : String) (v : String) :
    List (String × List String) → List (String × List String)
  | [] => [(k, [v])]
  | (k', l) :: t => if k' = k then (k', l ++ [v]) :: t else (k', l) :: dictPush k v t

/- ----------------------------------------------------------------- -/
/- The pattern registry (LegalTagExtractor.__init__).                 -/
/- ----------------------------------------------------------------- -/

/-- self.tag_patterns: tag name to its list of regex patterns, in the
source's insertion order. -/
def tag_patterns : List (String × List RE) :=
  [ ("housing_denial",
      [ rcat [rstr "housing", rdotStar, rstr "den", ralts [rstr "y", rstr "ied", rstr "ial"]],
        rcat [rstr "not", rdotStar, rstr "homeless"],
        rcat [rstr "accommodation", rdotStar, rstr "refus"],
        rcat [rstr "shelter", rdotStar, rstr "reject"] ]),
    ("section_202",
      [ rcat [rstr "section", rwsp, rstr "202"],
        rcat [rchr 's', ropt (rchr '.'), rwsp, rstr "202"],
        rcat [rstr "housing", rwsp, rstr "act", rwsp, rstr "1996"] ]),
    ("homelessness",
      [ rcat [rstr "homeless", ropt (rstr "ness")],
        rcat [rstr "no", rwsp, rstr "fixed", rwsp, rstr "abode"],
        rcat [rstr "rough", rwsp, rstr "sleep"] ]),
    ("mental_health",
      [ rcat [rstr "mental", rwsp, rstr "health"],
        rstr "psychiatric",
        rstr "psychological" ]),
    ("ellingham",
      [ rstr "ellingham",
        rcat [rstr "hospital", rdotStar, rstr "placement"],
        rcat [rstr "institutional", rdotStar, rstr "care"] ]),
    ("child_protection",
      [ rcat [rstr "child", rdotStar, rstr "protection"],
        rcat [rstr "under", rwsp, rstr "18"],
        rcat [rstr "minor", rdotStar, rstr "care"],
        rcat [rstr "age", ropt (rchr 'd'), rwsp, rchr '1',
              RE.cls (fun c => '5' ≤ c && c ≤ '7')] ]),
    ("sar_denial",
      [ rcat [rstr "sar", rdotStar, rstr "den", ralts [rstr "y", rstr "ied", rstr "ial"]],
        rcat [rstr "subject", rwsp, rstr "access", rdotStar, rstr "refus"],
        rcat [rstr "data", rdotStar, rstr "request", rdotStar, rstr "reject"] ]),
    ("discrimination",
      [ rstr "discriminat",
        rcat [rstr "disability", rdotStar, rstr "bias"],
        rcat [rstr "unequal", rdotStar, rstr "treatment"] ]),
    ("compensation",
      [ rstr "compensat",
        rstr "damages",
        rcat [rchr '£', rdig1, rdotStar, rstr "million"],
        rcat [rstr "financial", rdotStar, rstr "remedy"] ]),
    ("entrapment",
      [ rstr "entrap",
        rcat [rstr "circular", rdotStar, rstr "refer"],
        rcat [rstr "system", rdotStar, rstr "loop"] ]),
    ("negligence",
      [ rstr "negligen",
        rcat [rstr "breach", rdotStar, rstr "duty"],
        rcat [rstr "fail", rdotStar, rstr "care"] ]) ]

/-- self.date_patterns, in priority order.  Group numbers follow the
opening parentheses of the Python patterns. -/
def date_patterns : List RE :=
  [ -- \b(\d{1,2})[-/.](\d{1,2})[-/.](\d{2,4})\b
    rcat [RE.wb, RE.grp 1 d12, sepCls, RE.grp 2 d12, sepCls, RE.grp 3 d24, RE.wb],
    -- \b(\d{2,4})[-/.](\d{1,2})[-/.](\d{1,2})\b
    rcat [RE.wb, RE.grp 1 d24, sepCls, RE.grp 2 d12, sepCls, RE.grp 3 d12, RE.wb],
    -- \b(\d{1,2})\s+(Jan|Feb|Mar|Apr|May|Jun|Jul|Aug|Sep|Oct|Nov|Dec)[a-z]*\s+(\d{2,4})\b
    rcat [RE.wb, RE.grp 1 d12, rwsp1,
          RE.grp 2 (ralts [rstr "Jan", rstr "Feb", rstr "Mar", rstr "Apr",
                           rstr "May", rstr "Jun", rstr "Jul", rstr "Aug",
                           rstr "Sep", rstr "Oct", rstr "Nov", rstr "Dec"]),
          lowStar, rwsp1, RE.grp 3 d24, RE.wb],
    -- \b(January|February|...|December)\s+(\d{1,2}),?\s+(\d{2,4})\b
    rcat [RE.wb,
          RE.grp 1 (ralts [rstr "January", rstr "February", rstr "March",
                           rstr "April", rstr "May", rstr "June", rstr "July",
                           rstr "August", rstr "September", rstr "October",
                           rstr "November", rstr "December"]),
          rwsp1, RE.grp 2 d12, ropt (rchr ','), rwsp1, RE.grp 3 d24, RE.wb] ]

/-- self.locations: location name to keyword list, in source order. -/
def locations : List (String × List String) :=
  [ ("thurrock", ["thurrock", "council", "borough"]),
    ("ellingham", ["ellingham", "hospital"]),
    ("ak_housing", ["ak", "housing", "association"]) ]

/-- self.critical_markers. -/
def critical_markers : List String :=
  ["verdict", "judgment", "decision", "ruling",
   "evidence", "proof", "exhibit", "statement"]

/-- The month-name table inside _parse_date. -/
def monthsMap : List (String × String) :=
  [("jan", "01"), ("feb", "02"), ("mar", "03"), ("apr", "04"),
   ("may", "05"), ("jun", "06"), ("jul", "07"), ("aug", "08"),
   ("sep", "09"), ("oct", "10"), ("nov", "11"), ("dec", "12")]

/- ----------------------------------------------------------------- -/
/- The filename classifier.                                           -/
/- ----------------------------------------------------------------- -/

/-- Python str.isdigit (ASCII): nonempty and all digits. -/
def pyIsDigit (s : String) : Bool := !s.data.isEmpty && s.data.all isDigitChar

def digitsToNat : List Char → Nat :=
  List.foldl (fun a c => a * 10 + (c.toNat - '0'.toNat)) 0

/-- Python int(s) for the strings reachable here.  The regex groups fed to
it consist of decimal digits only; on anything else this model returns
none, standing for the ValueError that _parse_date's bare except catches
(int() also accepts signs and surrounding whitespace, which no group here
can contain). -/
def pyInt (s : String) : Option Int :=
  if !s.data.isEmpty && s.data.all isDigitChar
  then some (digitsToNat s.data : Int) else none

/-- str.zfill(2) for the sign-free strings used here. -/
def zfill2 (s : String) : String :=
  if s.data.length ≥ 2 then s
  else String.mk (List.replicate (2 - s.data.length) '0' ++ s.data)

/-- The two-digit-year adjustment inside _parse_date:
`if len(year) == 2: year = '20' + year if int(year) < 50 else '19' + year`.
none stands for the exception path of int(). -/
def yearAdjust (y : String) : Option String :=
  if y.data.length = 2 then
    (pyInt y).map (fun v => if v < 50 then "20" ++ y else "19" ++ y)
  else some y

/-- _parse_date applied to match.groups() (all date patterns have exactly
three groups, so the `len(groups) == 3` test is always true).  The
function's try/except returns None on the exception path; that path is
modelled by the none results of yearAdjust. -/
def parse_date (g1 g2 g3 : String) : Option String :=
  if pyIsDigit g2 then
    -- DD-MM-YYYY branch: day, month, year = groups
    match yearAdjust g3 with
    | none => none
    | some year => some (zfill2 g1 ++ "-" ++ zfill2 g2 ++ "-" ++ year)
  else
    -- month-name branch
    let month := (dictFind (String.mk (lowerChars (g2.data.take 3))) monthsMap).getD "00"
    match yearAdjust g3 with
    | none => none
    | some year => some (zfill2 g1 ++ "-" ++ month ++ "-" ++ year)

/-- The date-extraction loop of extract_from_filename: the first pattern
that matches anywhere in the extension-stripped (NOT lowercased) filename
wins and the loop breaks, whether or not parsing then succeeds. -/
def firstDateMatch (nameOnly : List Char) : Option (String × String × String) :=
  date_patterns.findSome? (fun p => reSearchCaps p nameOnly)

/-- The tag loop of extract_from_filename: a tag is added when any of its
patterns matches the lowercased extension-stripped name.  Python stores the
result in a set; here it is the duplicate-free list in registry order
(membership is what every downstream use consumes). -/
def matchedTags (nameLower : List Char) : List String :=
  (tag_patterns.filter (fun tp => tp.2.any (fun p => reSearch p nameLower))).map Prod.fst

/-- `any(marker in name_lower for marker in self.critical_markers)`. -/
def hasCriticalMarker (nameLower : List Char) : Bool :=
  critical_markers.any (fun m => containsSub m.data nameLower)

/-- The location loop: first location whose keyword list has a substring
hit in the lowercased name. -/
def findLocation (nameLower : List Char) : Option String :=
  ((locations.find? (fun lp => lp.2.any (fun kw => containsSub kw.data nameLower))).map
    Prod.fst)

/-- _normalize_filename: strip the extension, replace the separators
underscore/dash/dot by spaces, collapse whitespace runs, trim. -/
def collapseRuns : Bool → List Char → List Char
  | _, [] => []
  | inRun, c :: t =>
    if isPySpace c then
      if inRun then collapseRuns true t else ' ' :: collapseRuns true t
    else c :: collapseRuns false t

def stripEnds (s : List Char) : List Char :=
  ((s.dropWhile isPySpace).reverse.dropWhile isPySpace).reverse

def normalizeChars (s : List Char) : List Char :=
  let name := splitextChars s
  let name := name.map (fun c => if c == '_' || c == '-' || c == '.' then ' ' else c)
  stripEnds (collapseRuns false name)

/-- The metadata record built per file.  extract_from_filename fills the
first five fields; analyze_directory then adds relative_path, category and
file_hash (modelled as record updates on the empty-string defaults). -/
structure DocMeta where
  original_filename : String
  normalized_name : String
  tags : List String
  extracted_date : Option String
  location : Option String
  relative_path : String
  category : String
  file_hash : String
deriving DecidableEq, Repr

/-- extract_from_filename.  Tag, location and critical-marker matching all
run on the lowercased extension-stripped filename; the date search runs on
the extension-stripped filename without lowercasing; the separately
computed normalized name is stored but consulted by none of them. -/
def extract_from_filename (filename : String) : DocMeta :=
  let nameOnly := splitextChars filename.data
  let nameLower := lowerChars nameOnly
  let baseTags := matchedTags nameLower
  { original_filename := filename
    normalized_name := String.mk (normalizeChars filename.data)
    tags := if hasCriticalMarker nameLower then baseTags ++ ["critical_evidence"] else baseTags
    extracted_date := (firstDateMatch nameOnly).bind (fun g => parse_date g.1 g.2.1 g.2.2)
    location := findLocation nameLower
    relative_path := ""
    category := ""
    file_hash := "" }

/- ----------------------------------------------------------------- -/
/- The corpus scanner (analyze_directory).                            -/
/- ----------------------------------------------------------------- -/

/-- One file delivered by the os.walk loop of analyze_directory: the bare
filename, the basename of the containing directory, the path relative to
the scan root, and the value _calculate_file_hash returned for it (a
sha256 hex digest of the content, or the sentinel "hash_error" when the
file could not be read).  These four strings are exactly the inputs of the
per-file loop body; everything below them is pure and translated from the
source. -/
structure ScanFile where
  name : String
  category : String
  relPath : String
  hash : String
deriving DecidableEq, Repr

structure Statistics where
  total_documents : Nat
  tagged_documents : Nat
  dated_documents : Nat
  critical_documents : Nat
deriving DecidableEq, Repr

/-- The mutable `results` dict of analyze_directory (scan_date and
base_directory, being timestamp/CLI plumbing, are not modelled). -/
structure Results where
  documents : List (String × DocMeta)
  tag_index : List (String × List String)
  location_index : List (String × List String)
  date_index : List (String × List String)
  statistics : Statistics
deriving DecidableEq, Repr

def emptyResults : Results :=
  { documents := [], tag_index := [], location_index := [], date_index := []
    statistics := ⟨0, 0, 0, 0⟩ }

/-- The metadata stored for a scanned file: extract_from_filename output
plus the three fields the scanner fills in. -/
def scannedMeta (f : ScanFile) : DocMeta :=
  { extract_from_filename f.name with
      relative_path := f.relPath, category := f.category, file_hash := f.hash }

/-- Document id assigned by analyze_directory: the first 12 characters of
the file-hash string (`metadata['file_hash'][:12]`). -/
def docIdOf (f : ScanFile) : String := String.mk (f.hash.data.take 12)

/-- The body of the os.walk loop for one file.  Python's truthiness tests
`if metadata['tags']`, `if metadata['extracted_date']`, `if
metadata['location']` are nonemptiness of the set and non-None-ness of the
strings (extracted dates and locations are never empty strings). -/
def scanStep (r : Results) (f : ScanFile) : Results :=
  if isPdfName f.name then
    let md := scannedMeta f
    let docId := docIdOf f
    { documents := dictSet docId md r.documents
      tag_index := md.tags.foldl (fun d t => dictPush t docId d) r.tag_index
      location_index :=
        match md.location with
        | some l => dictPush l docId r.location_index
        | none => r.location_index
      date_index :=
        match md.extracted_date with
        | some dt => dictPush (String.mk (dt.data.take 7)) docId r.date_index
        | none => r.date_index
      statistics :=
        { total_documents := r.statistics.total_documents + 1
          tagged_documents := r.statistics.tagged_documents +
            (if md.tags.isEmpty then 0 else 1)
          dated_documents := r.statistics.dated_documents +
            (if md.extracted_date.isSome then 1 else 0)
          critical_documents := r.statistics.critical_documents +
            (if md.tags.contains "critical_evidence" then 1 else 0) } }
  else r

/-- analyze_directory over the files the directory walk yields, in walk
order. -/
def analyze_directory (files : List ScanFile) : Results :=
  files.foldl scanStep emptyResults

/- ----------------------------------------------------------------- -/
/- The index builder (create_searchable_index, _get_tag_category).    -/
/- ----------------------------------------------------------------- -/

/-- _get_tag_category: first category whose tag list contains the tag,
in the source's insertion order, defaulting to "other". -/
def getTagCategory (tag : String) : String :=
  if ["housing_denial", "section_202", "homelessness"].contains tag then "housing"
  else if ["mental_health", "ellingham", "child_protection"].contains tag then "mental_health"
  else if ["sar_denial", "discrimination", "compensation"].contains tag then "legal"
  else if ["entrapment", "negligence"].contains tag then "system_failure"
  else if ["critical_evidence"].contains tag then "evidence"
  else "other"

structure DocSummary where
  id : String
  filename : String
  path : String
  date : Option String
  location : Option String
deriving DecidableEq, Repr

structure TagEntry where
  document_count : Nat
  documents : List DocSummary
deriving DecidableEq, Repr

structure ProofChainEntry where
  name : String
  start_tag : String
  end_tag : String
  intermediate_tags : List String
deriving DecidableEq, Repr

structure CriticalDoc where
  id : String
  filename : String
  tags : List String
  importance : String
deriving DecidableEq, Repr

/-- The search-index structure (version and created timestamp omitted as
serialization plumbing). -/
structure SearchIndex where
  total_documents : Nat
  tags : List (String × List (String × TagEntry))
  search_aliases : List (String × List String)
  proof_chains : List ProofChainEntry
  critical_documents : List CriticalDoc
deriving DecidableEq, Repr

/-- The per-document summary appended for each doc id of a tag.  The
Python lookup analysis_results['documents'][doc_id] raises KeyError when
the id is absent; for create_searchable_index's actual input (a result of
analyze_directory) every indexed id is present (the referential-integrity
invariant proved below), so the default record of getD is unreachable. -/
def summarize (r : Results) (docId : String) : DocSummary :=
  let doc := (dictFind docId r.documents).getD
    ⟨"", "", [], none, none, "", "", ""⟩
  ⟨docId, doc.original_filename, doc.relative_path, doc.extracted_date, doc.location⟩

/-- `index['tags'][category][tag] = entry` on the two-level dict (creating
the inner dict when the category is new). -/
def nestedSet (cat tag : String) (e : TagEntry) :
    List (String × List (String × TagEntry)) → List (String × List (String × TagEntry))
  | [] => [(cat, [(tag, e)])]
  | (c, inner) :: t =>
    if c = cat then (c, dictSet tag e inner) :: t
    else (c, inner) :: nestedSet cat tag e t

/-- The leaf built for one tag: its document summaries and their count. -/
def tagLeaf (r : Results) (p : String × List String) : TagEntry :=
  let documents := p.2.map (summarize r)
  ⟨documents.length, documents⟩

/-- The tag-hierarchy loop of create_searchable_index. -/
def buildTagsMap (r : Results) : List (String × List (String × TagEntry)) :=
  r.tag_index.foldl
    (fun m p => nestedSet (getTagCategory p.1) p.1 (tagLeaf r p) m) []

/-- The static search-alias table. -/
def search_aliases_static : List (String × List String) :=
  [ ("housing_denial", ["housing denial", "denied housing", "accommodation refused"]),
    ("section_202", ["section 202", "s202", "s.202", "housing act 1996"]),
    ("ellingham", ["ellingham hospital", "ellingham placement"]),
    ("sar", ["subject access request", "data request", "sar denial"]),
    ("compensation", ["damages", "financial remedy", "181 million"]) ]

/-- create_searchable_index. -/
def create_searchable_index (r : Results) : SearchIndex :=
  { total_documents := r.statistics.total_documents
    tags := buildTagsMap r
    search_aliases := search_aliases_static
    proof_chains :=
      if (dictFind "housing_denial" r.tag_index).isSome &&
         (dictFind "compensation" r.tag_index).isSome then
        [⟨"Housing Denial → Compensation", "housing_denial", "compensation",
          ["discrimination", "negligence"]⟩]
      else []
    critical_documents :=
      r.documents.foldl
        (fun acc p =>
          if p.2.tags.contains "critical_evidence" then
            acc ++ [⟨p.1, p.2.original_filename, p.2.tags, "high"⟩]
          else acc)
        [] }

/-- Look a tag up across all categories of the two-level tag map (each tag
occurs in at most one category). -/
def flatTagLookup (si : SearchIndex) (t : String) : Option TagEntry :=
  dictFind t ((si.tags.map Prod.snd).flatten)

/- ----------------------------------------------------------------- -/
/- The report generator: the Critical Evidence section                -/
/- (generate_report, lines 405-413).                                  -/
/- ----------------------------------------------------------------- -/

/-- The critical-evidence loop of generate_report: list critical documents
in mapping-iteration order; after appending the 10th line, append the
remainder line `  ... and {critical_documents - 10} more` (a Python int
subtraction, hence Int) and break. -/
def criticalLoop (statCritical : Nat) : List (String × DocMeta) → Nat → String
  | [], _ => ""
  | (_, md) :: rest, count =>
    if md.tags.contains "critical_evidence" then
      let line := "- " ++ md.original_filename ++ "\n"
      if count + 1 ≥ 10 then
        line ++ "  ... and " ++ toString ((statCritical : Int) - 10) ++ " more\n"
      else line ++ criticalLoop statCritical rest (count + 1)
    else criticalLoop statCritical rest count

/-- The `## Critical Evidence` section of the report. -/
def reportCritical (r : Results) : String :=
  "\n## Critical Evidence\n" ++ criticalLoop r.statistics.critical_documents r.documents 0

/- ----------------------------------------------------------------- -/
/- Lemmas about the dict model.                                       -/
/- ----------------------------------------------------------------- -/

/-- Keys of a dict. -/
def dictKeys {α : Type} (d : List (String × α)) : List String := d.map Prod.fst

/-- All document ids stored in one index (concatenation of its buckets). -/
def indexVals (d : List (String × List String)) : List String :=
  (d.map Prod.snd).flatten

theorem dictFind_nil {α : Type} (k : String) : dictFind (α := α) k [] = none := rfl

theorem dictFind_cons {α : Type} (k k' : String) (v : α) (t : List (String × α)) :
    dictFind k ((k', v) :: t) = if k' = k then some v else dictFind k t := rfl

theorem dictSet_nil {α : Type} (k : String) (v : α) : dictSet k v [] = [(k, v)] := rfl

theorem dictSet_cons {α : Type} (k k' : String) (v w : α) (t : List (String × α)) :
    dictSet k v ((k', w) :: t) =
      if k' = k then (k', v) :: t else (k', w) :: dictSet k v t := rfl

theorem dictPush_nil (k v : String) : dictPush k v [] = [(k, [v])] := rfl

theorem dictPush_cons (k v k' : String) (l : List String)
    (t : List (String × List String)) :
    dictPush k v ((k', l) :: t) =
      if k' = k then (k', l ++ [v]) :: t else (k', l) :: dictPush k v t := rfl

theorem dictFind_mem {α : Type} {k : String} {v : α} {d : List (String × α)}
    (h : dictFind k d = some v) : (k, v) ∈ d := by
  induction d with
  | nil => exact absurd h (by simp [dictFind_nil])
  | cons p t ih =>
    obtain ⟨k', w⟩ := p
    rw [dictFind_cons] at h
    by_cases hk : k' = k
    · rw [if_pos hk] at h
      cases h
      exact hk ▸ List.mem_cons_self _ _
    · rw [if_neg hk] at h
      exact List.mem_cons_of_mem _ (ih h)

theorem dictFind_eq_none {α : Type} {k : String} {d : List (String × α)} :
    dictFind k d = none ↔ k ∉ dictKeys d := by
  induction d with
  | nil => simp [dictFind_nil, dictKeys]
  | cons p t ih =>
    obtain ⟨k', w⟩ := p
    rw [dictFind_cons]
    by_cases hk : k' = k
    · rw [if_pos hk]
      simp [dictKeys, hk]
    · rw [if_neg hk]
      simp only [dictKeys, List.map_cons, List.mem_cons]
      constructor
      · intro h hmem
        rcases hmem with hmem | hmem
        · exact hk hmem.symm
        · exact (ih.mp h) hmem
      · intro h
        exact ih.mpr (fun hmem => h (Or.inr hmem))

theorem dictFind_dictSet_self {α : Type} (k : String) (v : α) (d : List (String × α)) :
    dictFind k (dictSet k v d) = some v := by
  induction d with
  | nil => simp [dictSet_nil, dictFind_cons]
  | cons p t ih =>
    obtain ⟨k', w⟩ := p
    rw [dictSet_cons]
    by_cases hk : k' = k
    · rw [if_pos hk, dictFind_cons, if_pos hk]
    · rw [if_neg hk, dictFind_cons, if_neg hk]
      exact ih

theorem dictFind_dictSet_ne {α : Type} {k k' : String} (h : k' ≠ k) (v : α)
    (d : List (String × α)) : dictFind k' (dictSet k v d) = dictFind k' d := by
  induction d with
  | nil =>
    rw [dictSet_nil, dictFind_cons, if_neg (fun hh => h hh.symm), dictFind_nil]
  | cons p t ih =>
    obtain ⟨k₀, w⟩ := p
    rw [dictSet_cons]
    by_cases hk : k₀ = k
    · subst hk
      rw [if_pos rfl, dictFind_cons, dictFind_cons,
        if_neg (fun hh => h hh.symm), if_neg (fun hh => h hh.symm)]
    · rw [if_neg hk, dictFind_cons, dictFind_cons, ih]

theorem mem_dictKeys_dictSet {α : Type} {x k : String} (v : α) {d : List (String × α)}
    (h : x ∈ dictKeys d) : x ∈ dictKeys (dictSet k v d) := by
  induction d with
  | nil => exact absurd h (by simp [dictKeys])
  | cons p t ih =>
    obtain ⟨k', w⟩ := p
    rw [dictSet_cons]
    by_cases hk : k' = k
    · rw [if_pos hk]
      simpa [dictKeys] using h
    · rw [if_neg hk]
      simp only [dictKeys, List.map_cons, List.mem_cons] at h ⊢
      rcases h with h | h
      · exact Or.inl h
      · exact Or.inr (ih h)

theorem self_mem_dictKeys_dictSet {α : Type} (k : String) (v : α)
    (d : List (String × α)) : k ∈ dictKeys (dictSet k v d) := by
  induction d with
  | nil => simp [dictSet_nil, dictKeys]
  | cons p t ih =>
    obtain ⟨k', w⟩ := p
    rw [dictSet_cons]
    by_cases hk : k' = k
    · rw [if_pos hk]
      simp [dictKeys, hk]
    · rw [if_neg hk]
      simp only [dictKeys, List.map_cons, List.mem_cons]
      exact Or.inr ih

theorem dictFind_dictPush (t k : String) (v : String)
    (d : List (String × List String)) :
    dictFind t (dictPush k v d) =
      if t = k then some ((dictFind k d).getD [] ++ [v]) else dictFind t d := by
  induction d with
  | nil =>
    by_cases ht : t = k
    · subst ht; simp [dictPush_nil, dictFind_cons, dictFind_nil]
    · simp [dictPush_nil, dictFind_cons, dictFind_nil, ht, Ne.symm ht]
  | cons p rest ih =>
    obtain ⟨k', l⟩ := p
    by_cases hk : k' = k
    · subst hk
      by_cases ht : t = k'
      · subst ht
        simp [dictPush_cons, dictFind_cons]
      · simp [dictPush_cons, dictFind_cons, ht, Ne.symm ht]
    · by_cases ht' : k' = t
      · subst ht'
        simp [dictPush_cons, dictFind_cons, hk, Ne.symm hk]
      · simp [dictPush_cons, dictFind_cons, hk, ht', ih]

theorem mem_indexVals_cons {x : String} {k : String} {l : List String}
    {d : List (String × List String)} :
    x ∈ indexVals ((k, l) :: d) ↔ x ∈ l ∨ x ∈ indexVals d := by
  simp [indexVals]

theorem mem_indexVals_dictPush {x : String} {k v : String}
    {d : List (String × List String)}
    (h : x ∈ indexVals (dictPush k v d)) : x ∈ indexVals d ∨ x = v := by
  induction d with
  | nil =>
    rw [dictPush_nil] at h
    rcases mem_indexVals_cons.mp h with h | h
    · rcases List.mem_singleton.mp h with h
      exact Or.inr h
    · exact absurd h (by simp [indexVals])
  | cons p rest ih =>
    obtain ⟨k', l⟩ := p
    rw [dictPush_cons] at h
    by_cases hk : k' = k
    · rw [if_pos hk] at h
      rcases mem_indexVals_cons.mp h with h | h
      · rcases List.mem_append.mp h with h | h
        · exact Or.inl (mem_indexVals_cons.mpr (Or.inl h))
        · exact Or.inr (List.mem_singleton.mp h)
      · exact Or.inl (mem_indexVals_cons.mpr (Or.inr h))
    · rw [if_neg hk] at h
      rcases mem_indexVals_cons.mp h with h | h
      · exact Or.inl (mem_indexVals_cons.mpr (Or.inl h))
      · rcases ih h with h' | h'
        · exact Or.inl (mem_indexVals_cons.mpr (Or.inr h'))
        · exact Or.inr h'

theorem mem_indexVals_foldPush {x i : String} {ts : List String}
    {d : List (String × List String)}
    (h : x ∈ indexVals (ts.foldl (fun d' t => dictPush t i d') d)) :
    x ∈ indexVals d ∨ x = i := by
  induction ts generalizing d with
  | nil => exact Or.inl h
  | cons t rest ih =>
    simp only [List.foldl_cons] at h
    rcases ih h with h' | h'
    · exact mem_indexVals_dictPush h'
    · exact Or.inr h'

theorem dictKeys_dictPush (k v : String) (d : List (String × List String)) :
    dictKeys (dictPush k v d) =
      if k ∈ dictKeys d then dictKeys d else dictKeys d ++ [k] := by
  induction d with
  | nil => simp [dictPush_nil, dictKeys]
  | cons p rest ih =>
    obtain ⟨k', l⟩ := p
    by_cases hk : k' = k
    · subst hk
      simp [dictPush_cons, dictKeys]
    · simp only [dictPush_cons, if_neg hk, dictKeys, List.map_cons, List.mem_cons]
      by_cases hm : k ∈ dictKeys rest
      · simp only [dictKeys] at hm ih
        simp [ih, hm, hk, Ne.symm hk]
      · simp only [dictKeys] at hm ih
        simp [ih, hm, hk, Ne.symm hk]

theorem nodup_dictKeys_dictPush {k v : String} {d : List (String × List String)}
    (h : (dictKeys d).Nodup) : (dictKeys (dictPush k v d)).Nodup := by
  rw [dictKeys_dictPush]
  by_cases hm : k ∈ dictKeys d
  · rw [if_pos hm]; exact h
  · rw [if_neg hm]
    simp [List.nodup_append, h, hm]

/-- A predicate preserved by dictPush is preserved by the tag-index fold
of scanStep. -/
theorem foldPush_pred {P : List (String × List String) → Prop}
    (hP : ∀ k v d, P d → P (dictPush k v d)) (i : String) :
    ∀ (ts : List String) (d : List (String × List String)),
      P d → P (ts.foldl (fun d' t => dictPush t i d') d)
  | [], _, h => h
  | t :: ts, d, h => foldPush_pred hP i ts (dictPush t i d) (hP t i d h)

theorem scanStep_tagIndex_pred {P : List (String × List String) → Prop}
    (hP : ∀ k v d, P d → P (dictPush k v d)) (r : Results) (f : ScanFile)
    (h : P r.tag_index) : P (scanStep r f).tag_index := by
  by_cases hp : isPdfName f.name
  · simp only [scanStep, if_pos hp]
    exact foldPush_pred hP _ _ _ h
  · simpa only [scanStep, if_neg hp] using h

theorem foldl_scanStep_tagIndex_pred {P : List (String × List String) → Prop}
    (hP : ∀ k v d, P d → P (dictPush k v d)) :
    ∀ (files : List ScanFile) (r : Results),
      P r.tag_index → P ((files.foldl scanStep r)).tag_index
  | [], _, h => h
  | f :: fs, r, h =>
    foldl_scanStep_tagIndex_pred hP fs (scanStep r f) (scanStep_tagIndex_pred hP r f h)

/-- Every bucket list of the tag index of an analysis result is nonempty:
a key is only ever created together with its first appended id. -/
theorem analyze_tagIndex_vals_ne_nil (files : List ScanFile) :
    ∀ p ∈ (analyze_directory files).tag_index, p.2 ≠ ([] : List String) := by
  have hP : ∀ (k v : String) (d : List (String × List String)),
      (∀ p ∈ d, p.2 ≠ ([] : List String)) → ∀ p ∈ dictPush k v d, p.2 ≠ [] := by
    intro k v d h
    induction d with
    | nil =>
      intro p hp
      rw [dictPush_nil] at hp
      rcases List.mem_singleton.mp hp with h'
      subst h'; simp
    | cons q rest ih =>
      obtain ⟨k', l⟩ := q
      intro p hp
      by_cases hk : k' = k
      · rw [dictPush_cons, if_pos hk] at hp
        rcases List.mem_cons.mp hp with h' | h'
        · subst h'; simp
        · exact h p (List.mem_cons_of_mem _ h')
      · rw [dictPush_cons, if_neg hk] at hp
        rcases List.mem_cons.mp hp with h' | h'
        · subst h'; exact h _ (List.mem_cons_self _ _)
        · exact ih (fun q hq => h q (List.mem_cons_of_mem _ hq)) p h'
  exact foldl_scanStep_tagIndex_pred hP files emptyResults (by simp [emptyResults])

/-- The tag-index keys of an analysis result are pairwise distinct
(it models a Python dict). -/
theorem analyze_tagIndex_keys_nodup (files : List ScanFile) :
    (dictKeys (analyze_directory files).tag_index).Nodup :=
  foldl_scanStep_tagIndex_pred (P := fun d => (dictKeys d).Nodup)
    (fun _ _ _ h => nodup_dictKeys_dictPush h) files emptyResults
    (by simp [emptyResults, dictKeys])

/- ----------------------------------------------------------------- -/
/- Referential integrity (claim C5's invariant).                      -/
/- ----------------------------------------------------------------- -/

/-- Every document id in any index is a key of the documents mapping. -/
def refInt (r : Results) : Prop :=
  ∀ x : String,
    x ∈ indexVals r.tag_index ++ indexVals r.location_index ++ indexVals r.date_index →
    x ∈ dictKeys r.documents

theorem scanStep_refInt (r : Results) (f : ScanFile) (h : refInt r) :
    refInt (scanStep r f) := by
  by_cases hp : isPdfName f.name
  · intro x hx
    simp only [scanStep, if_pos hp] at hx ⊢
    have old : x ∈ indexVals r.tag_index ++ indexVals r.location_index ++
        indexVals r.date_index → x ∈ dictKeys (dictSet
          (String.mk (f.hash.data.take 12)) (scannedMeta f) r.documents) :=
      fun hm => mem_dictKeys_dictSet _ (h x hm)
    have idOk : x = String.mk (f.hash.data.take 12) → x ∈ dictKeys (dictSet
        (String.mk (f.hash.data.take 12)) (scannedMeta f) r.documents) := by
      intro he; subst he; exact self_mem_dictKeys_dictSet _ _ _
    rcases List.mem_append.mp hx with hx | hx
    · rcases List.mem_append.mp hx with hx | hx
      · rcases mem_indexVals_foldPush hx with hx' | hx'
        · exact old (List.mem_append.mpr (Or.inl (List.mem_append.mpr (Or.inl hx'))))
        · exact idOk hx'
      · rcases hml : (scannedMeta f).location with _ | l
        · rw [hml] at hx
          exact old (List.mem_append.mpr (Or.inl (List.mem_append.mpr (Or.inr hx))))
        · rw [hml] at hx
          rcases mem_indexVals_dictPush hx with hx' | hx'
          · exact old (List.mem_append.mpr (Or.inl (List.mem_append.mpr (Or.inr hx'))))
          · exact idOk hx'
    · rcases hmd : (scannedMeta f).extracted_date with _ | dt
      · rw [hmd] at hx
        exact old (List.mem_append.mpr (Or.inr hx))
      · rw [hmd] at hx
        rcases mem_indexVals_dictPush hx with hx' | hx'
        · exact old (List.mem_append.mpr (Or.inr hx'))
        · exact idOk hx'
  · intro x hx
    simp only [scanStep, if_neg hp] at hx ⊢
    exact h x hx

theorem foldl_scanStep_refInt :
    ∀ (files : List ScanFile) (r : Results), refInt r → refInt (files.foldl scanStep r)
  | [], _, h => h
  | f :: fs, r, h => foldl_scanStep_refInt fs (scanStep r f) (scanStep_refInt r f h)

theorem analyze_refInt (files : List ScanFile) : refInt (analyze_directory files) :=
  foldl_scanStep_refInt files emptyResults
    (by intro x hx; simp [emptyResults, indexVals] at hx)

/- ----------------------------------------------------------------- -/
/- Lookup through the tag-index fold and the two-level tag map.       -/
/- ----------------------------------------------------------------- -/

theorem dictFind_append_some {α : Type} {k : String} {l₁ : List (String × α)} {v : α}
    (h : dictFind k l₁ = some v) (l₂ : List (String × α)) :
    dictFind k (l₁ ++ l₂) = some v := by
  induction l₁ with
  | nil => exact absurd h (by simp [dictFind_nil])
  | cons p t ih =>
    obtain ⟨k', w⟩ := p
    rw [dictFind_cons] at h
    by_cases hk : k' = k
    · rw [if_pos hk] at h
      rw [List.cons_append, dictFind_cons, if_pos hk]
      exact h
    · rw [if_neg hk] at h
      rw [List.cons_append, dictFind_cons, if_neg hk]
      exact ih h

theorem dictFind_append_none {α : Type} {k : String} {l₁ : List (String × α)}
    (h : dictFind k l₁ = none) (l₂ : List (String × α)) :
    dictFind k (l₁ ++ l₂) = dictFind k l₂ := by
  induction l₁ with
  | nil => rfl
  | cons p t ih =>
    obtain ⟨k', w⟩ := p
    rw [dictFind_cons] at h
    by_cases hk : k' = k
    · rw [if_pos hk] at h; cases h
    · rw [if_neg hk] at h
      rw [List.cons_append, dictFind_cons, if_neg hk]
      exact ih h

theorem dictFind_append_eq_none {α : Type} {k : String} {l₁ l₂ : List (String × α)}
    (h : dictFind k (l₁ ++ l₂) = none) :
    dictFind k l₁ = none ∧ dictFind k l₂ = none := by
  cases hv : dictFind k l₁ with
  | some v => rw [dictFind_append_some hv l₂] at h; cases h
  | none => rw [dictFind_append_none hv l₂] at h; exact ⟨rfl, h⟩

theorem dictFind_append_congr_left {α : Type} {k : String}
    {l₁ l₁' l₂ : List (String × α)} (h : dictFind k l₁ = dictFind k l₁') :
    dictFind k (l₁ ++ l₂) = dictFind k (l₁' ++ l₂) := by
  cases hv : dictFind k l₁ with
  | some v =>
    have hv' : dictFind k l₁' = some v := by rw [← h, hv]
    rw [dictFind_append_some hv, dictFind_append_some hv']
  | none =>
    have hv' : dictFind k l₁' = none := by rw [← h, hv]
    rw [dictFind_append_none hv, dictFind_append_none hv']

theorem dictFind_append_congr_right {α : Type} {k : String}
    {l₁ l₂ l₂' : List (String × α)} (h : dictFind k l₂ = dictFind k l₂') :
    dictFind k (l₁ ++ l₂) = dictFind k (l₁ ++ l₂') := by
  cases hv : dictFind k l₁ with
  | some v => rw [dictFind_append_some hv, dictFind_append_some hv]
  | none => rw [dictFind_append_none hv, dictFind_append_none hv, h]

theorem dictFind_foldPush_not_mem {t i : String} {ts : List String} (h : t ∉ ts)
    (d : List (String × List String)) :
    dictFind t (ts.foldl (fun d' x => dictPush x i d') d) = dictFind t d := by
  induction ts generalizing d with
  | nil => rfl
  | cons x rest ih =>
    simp only [List.foldl_cons]
    have hx : t ≠ x := fun he => h (he ▸ List.mem_cons_self _ _)
    rw [ih (fun hm => h (List.mem_cons_of_mem _ hm)) (dictPush x i d),
      dictFind_dictPush, if_neg hx]

theorem dictFind_foldPush_mem {t i : String} {ts : List String} (hnd : ts.Nodup)
    (hm : t ∈ ts) (d : List (String × List String)) :
    dictFind t (ts.foldl (fun d' x => dictPush x i d') d) =
      some ((dictFind t d).getD [] ++ [i]) := by
  induction ts generalizing d with
  | nil => cases hm
  | cons x rest ih =>
    simp only [List.foldl_cons]
    by_cases he : t = x
    · subst he
      have hnotin : t ∉ rest := (List.nodup_cons.mp hnd).1
      rw [dictFind_foldPush_not_mem hnotin, dictFind_dictPush, if_pos rfl]
    · have hm' : t ∈ rest := by
        rcases List.mem_cons.mp hm with h' | h'
        · exact absurd h' he
        · exact h'
      rw [ih (List.nodup_cons.mp hnd).2 hm', dictFind_dictPush, if_neg he]

/-- Flattened pairs of a two-level map. -/
def catFlat (m : List (String × List (String × TagEntry))) : List (String × TagEntry) :=
  (m.map Prod.snd).flatten

theorem catFlat_nil : catFlat [] = [] := rfl

theorem catFlat_cons (c : String) (inner : List (String × TagEntry))
    (rest : List (String × List (String × TagEntry))) :
    catFlat ((c, inner) :: rest) = inner ++ catFlat rest := rfl

theorem dictFind_catFlat_nestedSet_self {tag : String} (cat : String) (e : TagEntry)
    {m : List (String × List (String × TagEntry))}
    (h : dictFind tag (catFlat m) = none) :
    dictFind tag (catFlat (nestedSet cat tag e m)) = some e := by
  induction m with
  | nil => simp [nestedSet, catFlat_cons, catFlat_nil, dictFind_cons]
  | cons p rest ih =>
    obtain ⟨c, inner⟩ := p
    rw [catFlat_cons] at h
    obtain ⟨h1, h2⟩ := dictFind_append_eq_none h
    by_cases hc : c = cat
    · show dictFind tag (catFlat (if c = cat then (c, dictSet tag e inner) :: rest
        else (c, inner) :: nestedSet cat tag e rest)) = some e
      rw [if_pos hc, catFlat_cons]
      exact dictFind_append_some (dictFind_dictSet_self tag e inner) _
    · show dictFind tag (catFlat (if c = cat then (c, dictSet tag e inner) :: rest
        else (c, inner) :: nestedSet cat tag e rest)) = some e
      rw [if_neg hc, catFlat_cons, dictFind_append_none h1]
      exact ih h2

theorem dictFind_catFlat_nestedSet_ne {t tag : String} (hne : t ≠ tag)
    (cat : String) (e : TagEntry) (m : List (String × List (String × TagEntry))) :
    dictFind t (catFlat (nestedSet cat tag e m)) = dictFind t (catFlat m) := by
  induction m with
  | nil =>
    simp [nestedSet, catFlat_cons, catFlat_nil, dictFind_cons, dictFind_nil, hne,
      Ne.symm hne]
  | cons p rest ih =>
    obtain ⟨c, inner⟩ := p
    by_cases hc : c = cat
    · show dictFind t (catFlat (if c = cat then (c, dictSet tag e inner) :: rest
        else (c, inner) :: nestedSet cat tag e rest)) = _
      rw [if_pos hc, catFlat_cons, catFlat_cons]
      exact dictFind_append_congr_left (dictFind_dictSet_ne hne e inner)
    · show dictFind t (catFlat (if c = cat then (c, dictSet tag e inner) :: rest
        else (c, inner) :: nestedSet cat tag e rest)) = _
      rw [if_neg hc, catFlat_cons, catFlat_cons]
      exact dictFind_append_congr_right ih

/-- Folding the tag-hierarchy step over entries whose key is not `t`
leaves the lookup of `t` unchanged. -/
theorem buildFold_preserve (mk : String × List String → TagEntry) :
    ∀ (entries : List (String × List String))
      (m : List (String × List (String × TagEntry))) (t : String),
      t ∉ entries.map Prod.fst →
      dictFind t (catFlat (entries.foldl
        (fun m' p => nestedSet (getTagCategory p.1) p.1 (mk p) m') m)) =
        dictFind t (catFlat m) := by
  intro entries
  induction entries with
  | nil => intro m t _; rfl
  | cons p rest ih =>
    intro m t h
    simp only [List.map_cons, List.mem_cons] at h
    push_neg at h
    simp only [List.foldl_cons]
    rw [ih _ t h.2, dictFind_catFlat_nestedSet_ne h.1 _ _ m]

/-- Looking up a tag in the two-level map built by the tag-hierarchy fold
returns the leaf of that tag's entry. -/
theorem buildFold_lookup (mk : String × List String → TagEntry) :
    ∀ (entries : List (String × List String))
      (m : List (String × List (String × TagEntry)))
      (t : String) (ids : List String),
      (entries.map Prod.fst).Nodup →
      (∀ t' ∈ entries.map Prod.fst, dictFind t' (catFlat m) = none) →
      (t, ids) ∈ entries →
      dictFind t (catFlat (entries.foldl
        (fun m' p => nestedSet (getTagCategory p.1) p.1 (mk p) m') m)) =
        some (mk (t, ids)) := by
  intro entries
  induction entries with
  | nil => intro m t ids _ _ hmem; cases hmem
  | cons p rest ih =>
    intro m t ids hnd hnone hmem
    obtain ⟨t₀, ids₀⟩ := p
    simp only [List.map_cons, List.nodup_cons] at hnd
    simp only [List.foldl_cons]
    rcases List.mem_cons.mp hmem with he | hmem'
    · cases he
      rw [buildFold_preserve mk rest _ t hnd.1,
        dictFind_catFlat_nestedSet_self _ _ (hnone t (by simp))]
    · have hne : t ≠ t₀ := by
        intro he'
        subst he'
        exact hnd.1 (by simpa using List.mem_map_of_mem Prod.fst hmem')
      refine ih _ t ids hnd.2 ?_ hmem'
      intro t' ht'
      rw [dictFind_catFlat_nestedSet_ne ?_ _ _ m]
      · exact hnone t' (List.mem_cons_of_mem _ ht')
      · intro he''
        subst he''
        exact hnd.1 ht'

/- ----------------------------------------------------------------- -/
/- Equation lemmas for extract_from_filename, and small facts.        -/
/- ----------------------------------------------------------------- -/

theorem extract_tags_eq (fn : String) :
    (extract_from_filename fn).tags =
      (if hasCriticalMarker (lowerChars (splitextChars fn.data))
       then matchedTags (lowerChars (splitextChars fn.data)) ++ ["critical_evidence"]
       else matchedTags (lowerChars (splitextChars fn.data))) := rfl

theorem extract_date_eq (fn : String) :
    (extract_from_filename fn).extracted_date =
      (firstDateMatch (splitextChars fn.data)).bind
        (fun g => parse_date g.1 g.2.1 g.2.2) := rfl

theorem extract_location_eq (fn : String) :
    (extract_from_filename fn).location =
      findLocation (lowerChars (splitextChars fn.data)) := rfl

/-- The registry's tag names, plus the synthetic critical-evidence tag. -/
def allTagNames : List String := tag_patterns.map Prod.fst ++ ["critical_evidence"]

theorem matchedTags_sublist (nl : List Char) :
    (matchedTags nl).Sublist (tag_patterns.map Prod.fst) :=
  (List.filter_sublist tag_patterns).map Prod.fst

theorem tag_patterns_keys_nodup : (tag_patterns.map Prod.fst).Nodup := by decide

theorem critical_not_registry : "critical_evidence" ∉ tag_patterns.map Prod.fst := by

  decide

theorem matchedTags_nodup (nl : List Char) : (matchedTags nl).Nodup :=
  tag_patterns_keys_nodup.sublist (matchedTags_sublist nl)

theorem extract_tags_nodup (fn : String) : (extract_from_filename fn).tags.Nodup := by
  rw [extract_tags_eq]
  by_cases h : hasCriticalMarker (lowerChars (splitextChars fn.data))
  · rw [if_pos h]
    refine (List.nodup_append).mpr ⟨matchedTags_nodup _, by simp, ?_⟩
    intro x hx
    simp only [List.mem_singleton]
    intro he
    subst he
    exact critical_not_registry ((matchedTags_sublist _).subset hx)
  · rw [if_neg h]
    exact matchedTags_nodup _

theorem mem_matchedTags_registry {t : String} {nl : List Char}
    (h : t ∈ matchedTags nl) : t ∈ tag_patterns.map Prod.fst :=
  (matchedTags_sublist nl).subset h

theorem extract_tags_allTagNames (fn : String) :
    ∀ t ∈ (extract_from_filename fn).tags, t ∈ allTagNames := by
  rw [extract_tags_eq]
  intro t ht
  by_cases h : hasCriticalMarker (lowerChars (splitextChars fn.data))
  · rw [if_pos h] at ht
    rcases List.mem_append.mp ht with ht | ht
    · exact List.mem_append.mpr (Or.inl (mem_matchedTags_registry ht))
    · exact List.mem_append.mpr (Or.inr ht)
  · rw [if_neg h] at ht
    exact List.mem_append.mpr (Or.inl (mem_matchedTags_registry ht))

/-- The three location names of the registry. -/
def locationNames : List String := locations.map Prod.fst

theorem findLocation_mem (nl : List Char) :
    ∀ l, findLocation nl = some l → l ∈ locationNames := by
  intro l h
  unfold findLocation at h
  rcases hf : locations.find? (fun lp => lp.2.any (fun kw => containsSub kw.data nl))
    with _ | p
  · rw [hf] at h; cases h
  · rw [hf] at h
    cases h
    exact List.mem_map_of_mem Prod.fst (List.mem_of_find?_eq_some hf)

/- ----------------------------------------------------------------- -/
/- String-append helpers.                                             -/
/- ----------------------------------------------------------------- -/

theorem strData_append (a b : String) : (a ++ b).data = a.data ++ b.data := by
  cases a; cases b; rfl

theorem strData_mk (l : List Char) : (String.mk l).data = l := rfl

theorem strExt {a b : String} (h : a.data = b.data) : a = b := by
  cases a; cases b; cases h; rfl

theorem strAppend_assoc (a b c : String) : a ++ b ++ c = a ++ (b ++ c) :=
  strExt (by rw [strData_append, strData_append, strData_append, strData_append,
    List.append_assoc])

theorem strAppend_empty (a : String) : a ++ "" = a :=
  strExt (by rw [strData_append]; show a.data ++ [] = a.data; simp)

theorem strEmpty_append (a : String) : "" ++ a = a :=
  strExt (by rw [strData_append]; show [] ++ a.data = a.data; simp)

/- ----------------------------------------------------------------- -/
/- Shape of the canonical date strings (claims C2 and C8).            -/
/- ----------------------------------------------------------------- -/

/-- DD-MM-YYYY: ten characters, digits everywhere except dashes at
positions 2 and 5. -/
def canonicalShape : List Char → Bool
  | [a, b, s1, c, d, s2, e, f, g, h] =>
    isDigitChar a && isDigitChar b && s1 == '-' && isDigitChar c && isDigitChar d &&
    s2 == '-' && isDigitChar e && isDigitChar f && isDigitChar g && isDigitChar h
  | _ => false

theorem list_len_two {l : List Char} (h : l.length = 2) : ∃ a b, l = [a, b] := by
  match l, h with
  | [a, b], _ => exact ⟨a, b, rfl⟩

theorem list_len_four {l : List Char} (h : l.length = 4) : ∃ a b c d, l = [a, b, c, d] := by
  match l, h with
  | [a, b, c, d], _ => exact ⟨a, b, c, d, rfl⟩

theorem zfill2_digits {s : String} (hd : s.data.all isDigitChar = true)
    (hl : s.data.length = 1 ∨ s.data.length = 2) :
    ∃ a b, (zfill2 s).data = [a, b] ∧ isDigitChar a = true ∧ isDigitChar b = true := by
  rcases hl with hl | hl
  · obtain ⟨a, ha⟩ := List.length_eq_one.mp hl
    refine ⟨'0', a, ?_, by decide, ?_⟩
    · unfold zfill2
      rw [if_neg (by omega), hl, strData_mk, ha]
      rfl
    · have := List.all_eq_true.mp hd a (by rw [ha]; exact List.mem_singleton.mpr rfl)
      exact this
  · obtain ⟨a, b, hab⟩ := list_len_two hl
    refine ⟨a, b, ?_, ?_, ?_⟩
    · unfold zfill2
      rw [if_pos (by omega)]
      exact hab
    · exact List.all_eq_true.mp hd a (by rw [hab]; simp)
    · exact List.all_eq_true.mp hd b (by rw [hab]; simp)

theorem yearAdjust_digits {y : String} (hd : y.data.all isDigitChar = true)
    (hl : y.data.length = 2 ∨ y.data.length = 4) :
    ∃ s, yearAdjust y = some s ∧ s.data.length = 4 ∧ s.data.all isDigitChar = true := by
  rcases hl with hl | hl
  · have hne : ¬y.data.isEmpty := by
      cases hy : y.data with
      | nil => rw [hy] at hl; cases hl
      | cons a t => simp
    have hint : pyInt y = some (digitsToNat y.data : Int) := by
      unfold pyInt
      rw [if_pos (by rw [hd]; simpa using hne)]
    unfold yearAdjust
    rw [if_pos hl, hint]
    by_cases hv : (digitsToNat y.data : Int) < 50
    · refine ⟨"20" ++ y, by rw [Option.map_some', if_pos hv], ?_, ?_⟩
      · rw [strData_append, List.length_append, hl]; rfl
      · rw [strData_append, List.all_append, hd]
        decide
    · refine ⟨"19" ++ y, by rw [Option.map_some', if_neg hv], ?_, ?_⟩
      · rw [strData_append, List.length_append, hl]; rfl
      · rw [strData_append, List.all_append, hd]
        decide
  · refine ⟨y, ?_, hl, hd⟩
    unfold yearAdjust
    rw [if_neg (by rw [hl]; decide)]

theorem pyIsDigit_of (m : String) (hm : m.data.all isDigitChar = true)
    (hml : m.data.length = 1 ∨ m.data.length = 2) : pyIsDigit m = true := by
  unfold pyIsDigit
  have hne : ¬m.data.isEmpty := by
    cases hy : m.data with
    | nil => rw [hy] at hml; rcases hml with h | h <;> cases h
    | cons a t => simp
  rw [hm]
  simpa using hne

/-- On purely numeric groups with day and month of one or two digits and a
year of exactly two or four digits, _parse_date produces a string of
canonical DD-MM-YYYY shape. -/
theorem parse_date_canonical {d m y : String}
    (hd : d.data.all isDigitChar = true) (hdl : d.data.length = 1 ∨ d.data.length = 2)
    (hm : m.data.all isDigitChar = true) (hml : m.data.length = 1 ∨ m.data.length = 2)
    (hy : y.data.all isDigitChar = true) (hyl : y.data.length = 2 ∨ y.data.length = 4) :
    ∃ s, parse_date d m y = some s ∧ canonicalShape s.data = true := by
  obtain ⟨d1, d2, hdd, hd1, hd2⟩ := zfill2_digits hd hdl
  obtain ⟨m1, m2, hmm, hm1, hm2⟩ := zfill2_digits hm hml
  obtain ⟨yr, hyr, hyrlen, hyrdig⟩ := yearAdjust_digits hy hyl
  obtain ⟨e, f, g, h, hyc⟩ := list_len_four hyrlen
  refine ⟨zfill2 d ++ "-" ++ zfill2 m ++ "-" ++ yr, ?_, ?_⟩
  · unfold parse_date
    rw [if_pos (pyIsDigit_of m hm hml), hyr]
  · rw [strData_append, strData_append, strData_append, strData_append,
      hdd, hmm, hyc]
    have he : isDigitChar e = true := List.all_eq_true.mp hyrdig e (by rw [hyc]; simp)
    have hf : isDigitChar f = true := List.all_eq_true.mp hyrdig f (by rw [hyc]; simp)
    have hg : isDigitChar g = true := List.all_eq_true.mp hyrdig g (by rw [hyc]; simp)
    have hh : isDigitChar h = true := List.all_eq_true.mp hyrdig h (by rw [hyc]; simp)
    show canonicalShape ([d1, d2] ++ "-".data ++ [m1, m2] ++ "-".data ++ [e, f, g, h]) = true
    simp only [List.cons_append, List.nil_append]
    show canonicalShape [d1, d2, '-', m1, m2, '-', e, f, g, h] = true
    simp [canonicalShape, hd1, hd2, hm1, hm2, he, hf, hg, hh]

/-- On a two-digit numeric year, _parse_date maps the year to 19xx when
its value is at least 50 and to 20xx otherwise — in both of its branches:
the numeric day-month-year branch (month zero-padded) and the month-name
branch (month taken from the abbreviation table, defaulting to "00"). -/
theorem parse_date_year2 {d m y : String}
    (hy : y.data.all isDigitChar = true) (hyl : y.data.length = 2) :
    parse_date d m y =
      some (zfill2 d ++ "-" ++
        (if pyIsDigit m then zfill2 m
         else (dictFind (String.mk (lowerChars (m.data.take 3))) monthsMap).getD "00") ++
        "-" ++ (if 50 ≤ digitsToNat y.data then "19" ++ y else "20" ++ y)) := by
  have hne : ¬y.data.isEmpty := by
    cases hyy : y.data with
    | nil => rw [hyy] at hyl; cases hyl
    | cons a t => simp
  have hint : pyInt y = some (digitsToNat y.data : Int) := by
    unfold pyInt
    rw [if_pos (by rw [hy]; simpa using hne)]
  have hya : yearAdjust y =
      some (if (digitsToNat y.data : Int) < 50 then "20" ++ y else "19" ++ y) := by
    unfold yearAdjust
    rw [if_pos hyl, hint, Option.map_some']
  unfold parse_date
  by_cases hm : pyIsDigit m = true
  · rw [if_pos hm, if_pos hm, hya]
    by_cases hv : 50 ≤ digitsToNat y.data
    · have h1 : ¬((digitsToNat y.data : Int) < 50) := by omega
      rw [if_neg h1, if_pos hv]
    · have h1 : (digitsToNat y.data : Int) < 50 := by omega
      rw [if_pos h1, if_neg hv]
  · rw [if_neg hm, if_neg hm]
    show (match yearAdjust y with
      | none => none
      | some year => some (zfill2 d ++ "-" ++
          (dictFind (String.mk (lowerChars (m.data.take 3))) monthsMap).getD "00" ++
          "-" ++ year)) = _
    rw [hya]
    by_cases hv : 50 ≤ digitsToNat y.data
    · have h1 : ¬((digitsToNat y.data : Int) < 50) := by omega
      rw [if_neg h1, if_pos hv]
    · have h1 : (digitsToNat y.data : Int) < 50 := by omega
      rw [if_pos h1, if_neg hv]

/- ----------------------------------------------------------------- -/
/- Characterization of the critical-evidence report loop (claim C9).  -/
/- ----------------------------------------------------------------- -/

def isCriticalDoc (p : String × DocMeta) : Bool := p.2.tags.contains "critical_evidence"

def critLine (p : String × DocMeta) : String := "- " ++ p.2.original_filename ++ "\n"

def remainderLine (statCritical : Nat) : String :=
  "  ... and " ++ toString ((statCritical : Int) - 10) ++ " more\n"

def concatAll : List String → String
  | [] => ""
  | s :: t => s ++ concatAll t

theorem criticalLoop_closed (stat : Nat) :
    ∀ (docs : List (String × DocMeta)) (c : Nat), c < 10 →
      criticalLoop stat docs c =
        concatAll (((docs.filter isCriticalDoc).take (10 - c)).map critLine) ++
          (if 10 - c ≤ (docs.filter isCriticalDoc).length
           then remainderLine stat else "") := by
  intro docs
  induction docs with
  | nil =>
    intro c hc
    have h0 : ¬(10 - c ≤ 0) := by omega
    simp [criticalLoop, concatAll, h0, strEmpty_append]
  | cons p rest ih =>
    intro c hc
    obtain ⟨i, md⟩ := p
    by_cases hcrit : isCriticalDoc (i, md)
    · have hcrit' : md.tags.contains "critical_evidence" = true := hcrit
      by_cases hstop : c + 1 ≥ 10
      · have h1 : 10 - c = 1 := by omega
        rw [List.filter_cons_of_pos hcrit, h1]
        have hifc : 1 ≤ ((i, md) :: rest.filter isCriticalDoc).length := by
          rw [List.length_cons]; omega
        rw [if_pos hifc]
        have htake : ((i, md) :: rest.filter isCriticalDoc).take 1 = [(i, md)] := rfl
        rw [htake]
        simp only [criticalLoop, hcrit', if_true, hstop]
        refine strExt ?_
        simp [concatAll, critLine, remainderLine, strData_append]
      · have hc1 : c + 1 < 10 := by omega
        have hns : ¬(c + 1 ≥ 10) := by omega
        have htake : 10 - c = (10 - (c + 1)) + 1 := by omega
        have hunfold : criticalLoop stat ((i, md) :: rest) c =
            ("- " ++ md.original_filename ++ "\n") ++ criticalLoop stat rest (c + 1) := by
          simp only [criticalLoop]
          rw [if_pos hcrit', if_neg hns]
        have hifeq : (if (10 - (c + 1)) + 1 ≤ ((i, md) :: rest.filter isCriticalDoc).length
              then remainderLine stat else "") =
            (if 10 - (c + 1) ≤ (rest.filter isCriticalDoc).length
              then remainderLine stat else "") := by
          refine if_congr ?_ rfl rfl
          rw [List.length_cons]
          omega
        rw [List.filter_cons_of_pos hcrit, htake, List.take_succ_cons, List.map_cons,
          hifeq, hunfold, ih (c + 1) hc1]
        refine strExt ?_
        simp [concatAll, critLine, strData_append]
    · have hcrit' : ¬md.tags.contains "critical_evidence" = true := hcrit
      have hloop : criticalLoop stat ((i, md) :: rest) c = criticalLoop stat rest c := by
        simp only [criticalLoop]
        rw [if_neg hcrit']
      rw [hloop, List.filter_cons_of_neg hcrit, ih c hc]

/- ----------------------------------------------------------------- -/
/- Per-field equations of one scanner step.                           -/
/- ----------------------------------------------------------------- -/

theorem scanStep_documents (r : Results) (f : ScanFile) (h : isPdfName f.name = true) :
    (scanStep r f).documents = dictSet (docIdOf f) (scannedMeta f) r.documents := by
  unfold scanStep
  rw [if_pos h]

theorem scanStep_tagIndex (r : Results) (f : ScanFile) (h : isPdfName f.name = true) :
    (scanStep r f).tag_index =
      (scannedMeta f).tags.foldl (fun d t => dictPush t (docIdOf f) d) r.tag_index := by
  unfold scanStep
  rw [if_pos h]

theorem scanStep_stats (r : Results) (f : ScanFile) (h : isPdfName f.name = true) :
    (scanStep r f).statistics.total_documents = r.statistics.total_documents + 1 ∧
    (scanStep r f).statistics.tagged_documents = r.statistics.tagged_documents +
      (if (extract_from_filename f.name).tags.isEmpty then 0 else 1) := by
  unfold scanStep
  rw [if_pos h]
  exact ⟨rfl, rfl⟩

/- ----------------------------------------------------------------- -/
/- Claims.                                                            -/
/- ----------------------------------------------------------------- -/

/-- C1, counterexample: the claim says tag matching runs on the normalized
name, so that "mental_health.pdf" is matched as "mental health".  It is
not: extract_from_filename produces no tags for "mental_health.pdf", even
though the registry match on the lowercased normalized name "mental
health" would yield the mental_health tag. -/
theorem c1_counterexample :
    (extract_from_filename "mental_health.pdf").tags = [] ∧
    matchedTags (lowerChars (normalizeChars "mental_health.pdf".data)) =
      ["mental_health"] := by
  constructor
  · decide
  · decide

/-- C1 (amended): tag matching, location matching and the critical-evidence
check run on the lowercased copy of the extension-stripped filename with
separators left intact — not on the normalized name.  They are
case-insensitive in that they depend only on that lowercased string: two
filenames with the same lowercased extension-stripped form receive the same
tags (including critical_evidence) and the same location. -/
theorem c1_matching_on_lowercased_stripped_name (fn₁ fn₂ : String)
    (h : lowerChars (splitextChars fn₁.data) = lowerChars (splitextChars fn₂.data)) :
    (extract_from_filename fn₁).tags = (extract_from_filename fn₂).tags ∧
    (extract_from_filename fn₁).location = (extract_from_filename fn₂).location := by
  constructor
  · rw [extract_tags_eq, extract_tags_eq, h]
  · rw [extract_location_eq, extract_location_eq, h]

theorem c1_witness :
    lowerChars (splitextChars "MENTAL_HEALTH.PDF".data) =
      lowerChars (splitextChars "mental_health.pdf".data) ∧
    (extract_from_filename "MENTAL_HEALTH.PDF").tags =
      (extract_from_filename "mental_health.pdf").tags :=
  ⟨by decide,
   (c1_matching_on_lowercased_stripped_name "MENTAL_HEALTH.PDF" "mental_health.pdf"
     (by decide)).1⟩

/-- C2, counterexample: the claim says every extracted date has canonical
DD-MM-YYYY shape and calls out "Report-2021-03-15.pdf" in particular.  In
fact that filename matches the second (year-month-day) pattern with groups
(2021, 03, 15), to which _parse_date applies the day-month-year rule,
yielding "2021-03-2015" — a four-digit day field and century-mapped "year"
15, not a canonical DD-MM-YYYY string. -/
theorem c2_counterexample :
    (extract_from_filename "Report-2021-03-15.pdf").extracted_date =
      some "2021-03-2015" ∧
    canonicalShape "2021-03-2015".data = false := by
  constructor
  · decide
  · decide

/-- C2 (amended): the extracted date has canonical DD-MM-YYYY shape
whenever the first-matching pattern's first and second groups are numeric
with one or two digits and its third group is numeric with exactly two or
four digits; inputs like Report-2021-03-15.pdf, whose first group has four
digits, fall outside this and produce non-canonical strings such as
2021-03-2015. -/
theorem c2_canonical_on_wellformed_groups (fn : String) (d m y : String)
    (hg : firstDateMatch (splitextChars fn.data) = some (d, m, y))
    (hd : d.data.all isDigitChar = true) (hdl : d.data.length = 1 ∨ d.data.length = 2)
    (hm : m.data.all isDigitChar = true) (hml : m.data.length = 1 ∨ m.data.length = 2)
    (hy : y.data.all isDigitChar = true) (hyl : y.data.length = 2 ∨ y.data.length = 4) :
    ∃ s, (extract_from_filename fn).extracted_date = some s ∧
      canonicalShape s.data = true := by
  rw [extract_date_eq, hg]
  exact parse_date_canonical hd hdl hm hml hy hyl

theorem c2_witness :
    ∃ s, (extract_from_filename "Report-15-03-2021.pdf").extracted_date = some s ∧
      canonicalShape s.data = true :=
  c2_canonical_on_wellformed_groups "Report-15-03-2021.pdf" "15" "03" "2021"
    (by decide) (by decide) (by decide) (by decide) (by decide) (by decide) (by decide)

def c3FileA : ScanFile :=
  ⟨"a-15-03-2021.pdf", "docs", "docs/a-15-03-2021.pdf", "1111111111111111"⟩

def c3FileB : ScanFile :=
  ⟨"b-20-03-2021.pdf", "docs", "docs/b-20-03-2021.pdf", "2222222222222222"⟩

/-- C3: the date-index key is the first seven characters of the extracted
DD-MM-YYYY string, i.e. day, month and one digit of the year — not a
year-month bucket, although the source comments the slice with YYYY-MM.
Two March-2021 documents land in the distinct buckets "15-03-2" and
"20-03-2", and no "2021-03" key exists. -/
theorem c3_date_buckets_are_day_month :
    (extract_from_filename "a-15-03-2021.pdf").extracted_date = some "15-03-2021" ∧
    (extract_from_filename "b-20-03-2021.pdf").extracted_date = some "20-03-2021" ∧
    dictKeys (analyze_directory [c3FileA, c3FileB]).date_index =
      ["15-03-2", "20-03-2"] := by
  refine ⟨by decide, by decide, by decide⟩

/-- The single hard-coded proof-chain record. -/
def theProofChain : ProofChainEntry :=
  ⟨"Housing Denial → Compensation", "housing_denial", "compensation",
    ["discrimination", "negligence"]⟩

/-- C4: on any analysis result, the proof-chain list is non-empty exactly
when both housing_denial and compensation have a nonempty bucket in the tag
index (key presence coincides with a nonempty bucket for analysis results),
and when non-empty it is exactly the one hard-coded
Housing Denial → Compensation entry with intermediates
[discrimination, negligence]. -/
theorem c4_proof_chain_iff (files : List ScanFile) :
    ((create_searchable_index (analyze_directory files)).proof_chains ≠ [] ↔
      ((dictFind "housing_denial" (analyze_directory files).tag_index).getD [] ≠ [] ∧
       (dictFind "compensation" (analyze_directory files).tag_index).getD [] ≠ [])) ∧
    ((create_searchable_index (analyze_directory files)).proof_chains = [] ∨
      (create_searchable_index (analyze_directory files)).proof_chains =
        [theProofChain]) := by
  have hbr : ∀ k : String,
      ((dictFind k (analyze_directory files).tag_index).getD [] ≠ []) ↔
        (dictFind k (analyze_directory files).tag_index).isSome = true := by
    intro k
    cases hf : dictFind k (analyze_directory files).tag_index with
    | none => simp
    | some l =>
      have hne : l ≠ [] := analyze_tagIndex_vals_ne_nil files (k, l) (dictFind_mem hf)
      simp [hne]
  have hpc : (create_searchable_index (analyze_directory files)).proof_chains =
      (if (dictFind "housing_denial" (analyze_directory files).tag_index).isSome &&
          (dictFind "compensation" (analyze_directory files).tag_index).isSome then
        [theProofChain]
      else []) := rfl
  constructor
  · rw [hpc, hbr, hbr]
    by_cases h1 : (dictFind "housing_denial" (analyze_directory files).tag_index).isSome
      = true <;>
      by_cases h2 : (dictFind "compensation" (analyze_directory files).tag_index).isSome
        = true <;>
      simp [h1, h2, theProofChain]
  · rw [hpc]
    by_cases hc : ((dictFind "housing_denial" (analyze_directory files).tag_index).isSome &&
        (dictFind "compensation" (analyze_directory files).tag_index).isSome) = true
    · rw [if_pos hc]
      exact Or.inr rfl
    · rw [if_neg hc]
      exact Or.inl rfl

def c4FileH : ScanFile :=
  ⟨"housing_denied.pdf", "h", "h/housing_denied.pdf", "abcdefabcdefabcd"⟩

def c4FileC : ScanFile :=
  ⟨"compensation_claim.pdf", "c", "c/compensation_claim.pdf", "9999888877776666"⟩

theorem c4_witness :
    (create_searchable_index (analyze_directory [c4FileH, c4FileC])).proof_chains =
      [theProofChain] := by
  rcases (c4_proof_chain_iff [c4FileH, c4FileC]).2 with h | h
  · exact absurd ((c4_proof_chain_iff [c4FileH, c4FileC]).1.mpr ⟨by decide, by decide⟩) (by
      rw [h]
      simp)
  · exact h

/-- C5: referential integrity of an analysis result — every document id
appearing in any bucket of the tag, location or date index is a key of the
documents mapping. -/
theorem c5_referential_integrity (files : List ScanFile) (x : String)
    (h : x ∈ indexVals (analyze_directory files).tag_index ++
      indexVals (analyze_directory files).location_index ++
      indexVals (analyze_directory files).date_index) :
    x ∈ dictKeys (analyze_directory files).documents :=
  analyze_refInt files x h

def c5File : ScanFile :=
  ⟨"housing_denied_2021.pdf", "h", "h/housing_denied_2021.pdf", "00ff00ff00ff00ff"⟩

theorem c5_witness :
    "00ff00ff00ff" ∈ dictKeys (analyze_directory [c5File]).documents :=
  c5_referential_integrity [c5File] "00ff00ff00ff" (by decide)

/-- C6: the classifier is a total function of the filename.  The extracted
date is exactly the parse of the first matching date pattern — so a parse
failure (the modelled exception path of _parse_date, which returns none)
silently yields an absent date and later patterns are never consulted —
and whatever the input, the produced tags come from the fixed registry
vocabulary (plus critical_evidence) and the location from the fixed
location table: malformed input degrades to fewer or no tags, an absent
date and an absent location instead of an error. -/
theorem c6_totality_and_silent_degradation (fn : String) :
    (extract_from_filename fn).extracted_date =
      (firstDateMatch (splitextChars fn.data)).bind
        (fun g => parse_date g.1 g.2.1 g.2.2) ∧
    (extract_from_filename fn).tags.all (fun t => allTagNames.contains t) = true ∧
    (extract_from_filename fn).location.all (fun l => locationNames.contains l) = true := by
  refine ⟨extract_date_eq fn, ?_, ?_⟩
  · rw [List.all_eq_true]
    intro t ht
    exact List.elem_eq_true_of_mem (extract_tags_allTagNames fn t ht)
  · rcases hl : (extract_from_filename fn).location with _ | l
    · rfl
    · have hmem : l ∈ locationNames := by
        refine findLocation_mem (lowerChars (splitextChars fn.data)) l ?_
        rw [← extract_location_eq]
        exact hl
      exact List.elem_eq_true_of_mem hmem

/-- C7: a scanned .pdf whose lowercased stripped name matches no registry
tag pattern and contains no critical marker gets an empty tag set, and its
scan increments total_documents but leaves tagged_documents unchanged. -/
theorem c7_unmatched_pdf_counted_untagged (fs : List ScanFile) (f : ScanFile)
    (hpdf : isPdfName f.name = true)
    (hno : matchedTags (lowerChars (splitextChars f.name.data)) = [])
    (hcm : hasCriticalMarker (lowerChars (splitextChars f.name.data)) = false) :
    (extract_from_filename f.name).tags = [] ∧
    (analyze_directory (fs ++ [f])).statistics.total_documents =
      (analyze_directory fs).statistics.total_documents + 1 ∧
    (analyze_directory (fs ++ [f])).statistics.tagged_documents =
      (analyze_directory fs).statistics.tagged_documents := by
  have htags : (extract_from_filename f.name).tags = [] := by
    rw [extract_tags_eq]
    rw [if_neg (by rw [hcm]; exact Bool.false_ne_true)]
    exact hno
  have hfold : analyze_directory (fs ++ [f]) = scanStep (analyze_directory fs) f := by
    unfold analyze_directory
    rw [List.foldl_append]
    rfl
  refine ⟨htags, ?_, ?_⟩
  · rw [hfold]
    exact (scanStep_stats (analyze_directory fs) f hpdf).1
  · rw [hfold, (scanStep_stats (analyze_directory fs) f hpdf).2, htags]
    rfl

def c7File : ScanFile :=
  ⟨"random_notes.pdf", "misc", "misc/random_notes.pdf", "ffffffffffff0000"⟩

theorem c7_witness :
    isPdfName c7File.name = true ∧
    (extract_from_filename c7File.name).tags = [] ∧
    (analyze_directory ([] ++ [c7File])).statistics.total_documents =
      (analyze_directory []).statistics.total_documents + 1 ∧
    (analyze_directory ([] ++ [c7File])).statistics.tagged_documents =
      (analyze_directory []).statistics.tagged_documents := by
  have h := c7_unmatched_pdf_counted_untagged [] c7File (by decide) (by decide) (by decide)
  exact ⟨by decide, h.1, h.2.1, h.2.2⟩

/-- C8: whenever the first-matching date pattern's year group has exactly
two digits, the extracted date's year is mapped to 19xx when the two-digit
value is at least 50 and to 20xx otherwise — in the numeric day-month-year
branch of _parse_date and in its month-name branch alike (the month field
being the zero-padded group or the abbreviation-table lookup
respectively). -/
theorem c8_two_digit_year_mapping (fn : String) (d m y : String)
    (hg : firstDateMatch (splitextChars fn.data) = some (d, m, y))
    (hy : y.data.all isDigitChar = true) (hyl : y.data.length = 2) :
    (extract_from_filename fn).extracted_date =
      some (zfill2 d ++ "-" ++
        (if pyIsDigit m then zfill2 m
         else (dictFind (String.mk (lowerChars (m.data.take 3))) monthsMap).getD "00") ++
        "-" ++ (if 50 ≤ digitsToNat y.data then "19" ++ y else "20" ++ y)) := by
  rw [extract_date_eq, hg]
  exact parse_date_year2 hy hyl

theorem c8_witness :
    (extract_from_filename "Report-15-03-99.pdf").extracted_date = some "15-03-1999" ∧
    (extract_from_filename "Report-15-03-05.pdf").extracted_date = some "15-03-2005" ∧
    (extract_from_filename "Hearing 5 Mar 99.pdf").extracted_date = some "05-03-1999" := by
  refine ⟨?_, ?_, ?_⟩
  · have h := c8_two_digit_year_mapping "Report-15-03-99.pdf" "15" "03" "99"
      (by decide) (by decide) (by decide)
    exact h.trans (by decide)
  · have h := c8_two_digit_year_mapping "Report-15-03-05.pdf" "15" "03" "05"
      (by decide) (by decide) (by decide)
    exact h.trans (by decide)
  · have h := c8_two_digit_year_mapping "Hearing 5 Mar 99.pdf" "5" "Mar" "99"
      (by decide) (by decide) (by decide)
    exact h.trans (by decide)

/-- C9 (amended): the Critical Evidence loop of generate_report lists the
first up-to-10 critical documents in mapping-iteration order, and appends
the remainder line `  ... and {critical_documents - 10} more` exactly when
at least 10 critical documents exist in the mapping — including the case of
exactly 10, where the line reads "... and 0 more"; with fewer than 10 no
remainder line appears. -/
theorem c9_critical_section_closed_form (r : Results) :
    criticalLoop r.statistics.critical_documents r.documents 0 =
      concatAll (((r.documents.filter isCriticalDoc).take 10).map critLine) ++
        (if 10 ≤ (r.documents.filter isCriticalDoc).length
         then remainderLine r.statistics.critical_documents else "") := by
  have h := criticalLoop_closed r.statistics.critical_documents r.documents 0 (by omega)
  simpa using h

def c9Files : List ScanFile :=
  [ ⟨"proof01.pdf", "c", "c/proof01.pdf", "aaaaaaaaaa01"⟩,
    ⟨"proof02.pdf", "c", "c/proof02.pdf", "aaaaaaaaaa02"⟩,
    ⟨"proof03.pdf", "c", "c/proof03.pdf", "aaaaaaaaaa03"⟩,
    ⟨"proof04.pdf", "c", "c/proof04.pdf", "aaaaaaaaaa04"⟩,
    ⟨"proof05.pdf", "c", "c/proof05.pdf", "aaaaaaaaaa05"⟩,
    ⟨"proof06.pdf", "c", "c/proof06.pdf", "aaaaaaaaaa06"⟩,
    ⟨"proof07.pdf", "c", "c/proof07.pdf", "aaaaaaaaaa07"⟩,
    ⟨"proof08.pdf", "c", "c/proof08.pdf", "aaaaaaaaaa08"⟩,
    ⟨"proof09.pdf", "c", "c/proof09.pdf", "aaaaaaaaaa09"⟩,
    ⟨"proof10.pdf", "c", "c/proof10.pdf", "aaaaaaaaaa10"⟩ ]

/-- C9, counterexample: the claim says the remainder line appears only when
more than 10 critical documents exist.  A scan of exactly 10 critical
documents already produces it, reading "... and 0 more". -/
theorem c9_counterexample :
    ((analyze_directory c9Files).documents.filter isCriticalDoc).length = 10 ∧
    criticalLoop (analyze_directory c9Files).statistics.critical_documents
        (analyze_directory c9Files).documents 0 =
      "- proof01.pdf\n- proof02.pdf\n- proof03.pdf\n- proof04.pdf\n- proof05.pdf\n" ++
      "- proof06.pdf\n- proof07.pdf\n- proof08.pdf\n- proof09.pdf\n- proof10.pdf\n" ++
      "  ... and 0 more\n" := by
  constructor
  · decide
  · decide

/-- C10: two scanned .pdf files with the same hash (for instance two
unreadable files, both reported as "hash_error") collapse to one document
id: the documents mapping keeps only the last-scanned file's metadata under
that id, yet each file separately appended the id to the shared tag's
bucket, so the bucket holds the id twice and the search index's
document_count for that tag is 2 while only one distinct document
exists. -/
theorem c10_hash_collision_last_wins (f g : ScanFile) (t : String)
    (hf : isPdfName f.name = true) (hg : isPdfName g.name = true)
    (hh : f.hash = g.hash)
    (ht1 : t ∈ (extract_from_filename f.name).tags)
    (ht2 : t ∈ (extract_from_filename g.name).tags) :
    (analyze_directory [f, g]).documents = [(docIdOf f, scannedMeta g)] ∧
    dictFind t (analyze_directory [f, g]).tag_index = some [docIdOf f, docIdOf f] ∧
    ∃ e, flatTagLookup (create_searchable_index (analyze_directory [f, g])) t = some e ∧
      e.document_count = 2 ∧ (analyze_directory [f, g]).documents.length = 1 := by
  have hid : docIdOf g = docIdOf f := by unfold docIdOf; rw [hh]
  have hsteps : analyze_directory [f, g] = scanStep (scanStep emptyResults f) g := rfl
  have hdocs : (analyze_directory [f, g]).documents = [(docIdOf f, scannedMeta g)] := by
    rw [hsteps, scanStep_documents _ g hg, scanStep_documents _ f hf, hid]
    show dictSet (docIdOf f) (scannedMeta g)
      (dictSet (docIdOf f) (scannedMeta f) emptyResults.documents) = _
    rw [show emptyResults.documents = [] from rfl, dictSet_nil, dictSet_cons, if_pos rfl]
  have e1 : (scannedMeta f).tags = (extract_from_filename f.name).tags := rfl
  have e2 : (scannedMeta g).tags = (extract_from_filename g.name).tags := rfl
  have htag : dictFind t (analyze_directory [f, g]).tag_index =
      some [docIdOf f, docIdOf f] := by
    rw [hsteps, scanStep_tagIndex _ g hg, scanStep_tagIndex _ f hf, e1, e2, hid]
    rw [dictFind_foldPush_mem (extract_tags_nodup g.name) ht2]
    rw [dictFind_foldPush_mem (extract_tags_nodup f.name) ht1]
    rfl
  refine ⟨hdocs, htag, tagLeaf (analyze_directory [f, g]) (t, [docIdOf f, docIdOf f]),
    ?_, ?_, ?_⟩
  · show dictFind t (catFlat (buildTagsMap (analyze_directory [f, g]))) = _
    exact buildFold_lookup (tagLeaf (analyze_directory [f, g]))
      (analyze_directory [f, g]).tag_index [] t [docIdOf f, docIdOf f]
      (analyze_tagIndex_keys_nodup [f, g]) (fun t' _ => rfl) (dictFind_mem htag)
  · show (((t, [docIdOf f, docIdOf f]).2.map
      (summarize (analyze_directory [f, g]))).length) = 2
    rw [List.length_map]
    rfl
  · rw [hdocs]
    rfl

def c10FileA : ScanFile := ⟨"homeless_verdict_a.pdf", "cat", "cat/a.pdf", "hash_error"⟩

def c10FileB : ScanFile := ⟨"homeless_verdict_b.pdf", "cat", "cat/b.pdf", "hash_error"⟩

theorem c10_witness :
    dictFind "homelessness" (analyze_directory [c10FileA, c10FileB]).tag_index =
      some ["hash_error", "hash_error"] ∧
    (analyze_directory [c10FileA, c10FileB]).documents.length = 1 := by
  have h := c10_hash_collision_last_wins c10FileA c10FileB "homelessness"
    (by decide) (by decide) (by decide) (by decide) (by decide)
  constructor
  · exact h.2.1.trans (by decide)
  · rw [h.1]
    rfl

end TagExtractor
